import Mathlib

/-!
Shallow embedding of the `fpga::dma_axi_write_simple::DmaNoCopy` driver class
declared in `modules/dma_axi_write_simple/cpp/include/dma_axi_write_simple_no_copy.h`.

The repository ships only the header: the `Response` struct, the member
variables of `DmaNoCopy` and the method declarations with their documentation.
The method bodies are not part of the source tree, so every behavioural
definition below is modelled from the specification of the corresponding
method; each such definition carries a doc comment starting with
`Modelled from the spec:` naming what is missing.

Modelling conventions:
- `size_t` and `uint32_t` quantities become `Nat`; all cursor values are kept
  reduced modulo `size_bytes`, matching the spec's description of cursors as
  logical offsets modulo `size_bytes`.
- The buffer base address is taken as 0, so a logical position `p` maps to the
  physical offset `p % size_bytes` inside the buffer.
- The register interface and the interrupt status are external collaborators:
  the freshly polled hardware write cursor and the polled interrupt status are
  explicit inputs of each operation, and the value an operation writes to the
  done-cursor register is an explicit output.
- The assertion handler is assumed fatal: an operation that invokes it is
  modelled as reporting `assertion_called = true` and leaving the tracker
  state unchanged (nothing after a fatal report is reachable).
- The C++ header keeps no member for the hardware write cursor (it is
  re-polled on every use); the `write_address` field below models the most
  recently observed value, as the spec's data model describes it.
-/

namespace DmaAxiWriteSimple

/-- Cyclic difference `(a − b) mod n`, computed as `(a + n - b) % n` so that it
is well defined on `Nat` for `a b < n`.  This is the quantity the spec writes
as `(x − y) mod size_bytes`. -/
def wrap_sub (a b n : Nat) : Nat :=
  (a + n - b) % n

/-- The `Response` struct from the header (lines 18–21): a byte count and a
pointer into the ring buffer.  The pointer is modelled as the byte offset from
the buffer base; `none` models a null pointer. -/
structure Response where
  num_bytes : Nat
  data : Option Nat
deriving DecidableEq

/-- The zero-initialized `Response` constant `response_zero_bytes` from the
header (lines 193–196): all fields zeroed, i.e. byte count 0 and a null data
pointer. -/
def response_zero_bytes : Response :=
  { num_bytes := 0, data := none }

/-- Interrupt status polled from the register interface: a `write_done` flag
and whether any error interrupt is signalled. -/
structure InterruptStatus where
  write_done : Bool
  error : Bool
deriving DecidableEq

/-- State of the `DmaNoCopy` tracker.  `outstanding_read_address` and
`done_read_address` correspond to the members
`m_in_buffer_read_outstanding_address` and `m_in_buffer_read_done_address` of
the header (lines 44–45); `size_bytes` corresponds to `m_buffer_size_bytes`;
`write_address` is the most recently observed hardware write cursor. -/
structure DmaNoCopy where
  size_bytes : Nat
  write_address : Nat
  outstanding_read_address : Nat
  done_read_address : Nat
deriving DecidableEq

/-- The number of bytes available to read:
`(write_address − outstanding_read_address) mod size_bytes`. -/
def DmaNoCopy.availQ (s : DmaNoCopy) : Nat :=
  wrap_sub s.write_address s.outstanding_read_address s.size_bytes

/-- The number of bytes currently outstanding:
`(outstanding_read_address − done_read_address) mod size_bytes`. -/
def DmaNoCopy.outQ (s : DmaNoCopy) : Nat :=
  wrap_sub s.outstanding_read_address s.done_read_address s.size_bytes

/-- The cyclic cursor invariant `done ≤ outstanding ≤ write` of the spec,
expressed through the two modular quantities: the outstanding quantity plus
the available quantity never exceeds `size_bytes`. -/
def DmaNoCopy.CursorInv (s : DmaNoCopy) : Prop :=
  s.outQ + s.availQ ≤ s.size_bytes

/-- Well-formedness of the tracker state: a positive buffer size and all
cursors reduced below it. -/
def DmaNoCopy.WF (s : DmaNoCopy) : Prop :=
  0 < s.size_bytes ∧ s.write_address < s.size_bytes ∧
    s.outstanding_read_address < s.size_bytes ∧ s.done_read_address < s.size_bytes

/-- The tracker state at construction and after a clear: all cursors at
offset 0. -/
def initial_state (size_bytes : Nat) : DmaNoCopy :=
  { size_bytes := size_bytes, write_address := 0,
    outstanding_read_address := 0, done_read_address := 0 }

/-- Modelled from the spec: the body of `DmaNoCopy::check_status` is not in
the source tree.  Polls the interrupt status; reports through the assertion
handler (first component) when any error interrupt is signalled, and returns
(second component) whether the `write_done` interrupt has triggered. -/
def check_status (irq : InterruptStatus) : Bool × Bool :=
  (irq.error, irq.write_done)

/-- Result of a receive operation: whether the assertion handler was invoked
by the status check, the `Response` returned to the caller, and the tracker
state afterwards. -/
structure ReceiveResult where
  assertion_called : Bool
  response : Response
  state : DmaNoCopy
deriving DecidableEq

/-- Modelled from the spec: the body of `DmaNoCopy::receive_data` is not in
the source tree.  Runs the status check, refreshes `write_address` from the
polled register value `hw_write`, computes
`available = (write_address − outstanding_read_address) mod size_bytes`,
returns a zero-length result when `available < min_num_bytes`, and otherwise
delivers `min (min available max_num_bytes) contiguous` bytes where
`contiguous = size_bytes − outstanding_read_address mod size_bytes`, never
spanning the physical end of the buffer, advancing
`outstanding_read_address` by the delivered count modulo `size_bytes`. -/
def receive_data (s : DmaNoCopy) (irq : InterruptStatus) (hw_write : Nat)
    (min_num_bytes max_num_bytes : Nat) : ReceiveResult :=
  if (check_status irq).1 then
    { assertion_called := true, response := response_zero_bytes, state := s }
  else
    let w := hw_write % s.size_bytes
    let available := wrap_sub w s.outstanding_read_address s.size_bytes
    if available < min_num_bytes then
      { assertion_called := false, response := response_zero_bytes,
        state := { s with write_address := w } }
    else
      let want := min available max_num_bytes
      let contiguous := s.size_bytes - s.outstanding_read_address % s.size_bytes
      let deliver := min want contiguous
      { assertion_called := false,
        response := { num_bytes := deliver,
                      data := some (s.outstanding_read_address % s.size_bytes) },
        state := { s with
                   write_address := w,
                   outstanding_read_address :=
                     (s.outstanding_read_address + deliver) % s.size_bytes } }

/-- Modelled from the spec: the body of `DmaNoCopy::receive_all_data` is not
in the source tree.  Drains as much contiguous data as is currently
available, still bounded by the wrap constraint: after the status check and
the write-cursor refresh it delivers `min available contiguous` bytes. -/
def receive_all_data (s : DmaNoCopy) (irq : InterruptStatus) (hw_write : Nat) :
    ReceiveResult :=
  if (check_status irq).1 then
    { assertion_called := true, response := response_zero_bytes, state := s }
  else
    let w := hw_write % s.size_bytes
    let available := wrap_sub w s.outstanding_read_address s.size_bytes
    let contiguous := s.size_bytes - s.outstanding_read_address % s.size_bytes
    let deliver := min available contiguous
    { assertion_called := false,
      response := { num_bytes := deliver,
                    data := some (s.outstanding_read_address % s.size_bytes) },
      state := { s with
                 write_address := w,
                 outstanding_read_address :=
                   (s.outstanding_read_address + deliver) % s.size_bytes } }

/-- Result of a release operation: whether the assertion handler was invoked
because of a usage violation, the value written to the done-cursor register
(if any), and the tracker state afterwards. -/
structure DoneResult where
  assertion_called : Bool
  reg_write : Option Nat
  state : DmaNoCopy
deriving DecidableEq

/-- Modelled from the spec: the body of `DmaNoCopy::done_with_data` is not in
the source tree.  Releasing more bytes than are currently outstanding is a
usage error reported through the assertion handler, with no cursor mutation;
otherwise `done_read_address` advances by `num_bytes` modulo `size_bytes` and
the new value is written to the done-cursor register. -/
def done_with_data (s : DmaNoCopy) (num_bytes : Nat) : DoneResult :=
  if s.outQ < num_bytes then
    { assertion_called := true, reg_write := none, state := s }
  else
    let d := (s.done_read_address + num_bytes) % s.size_bytes
    { assertion_called := false, reg_write := some d,
      state := { s with done_read_address := d } }

/-- Modelled from the spec: the body of `DmaNoCopy::clear_all_data` is not in
the source tree.  Resets `outstanding_read_address` and `done_read_address`
to the freshly polled `write_address`, and informs the register interface
that the entire buffer span is free by writing the new done cursor out
(first component of the result). -/
def clear_all_data (s : DmaNoCopy) (hw_write : Nat) : Nat × DmaNoCopy :=
  let w := hw_write % s.size_bytes
  (w, { s with write_address := w, outstanding_read_address := w,
               done_read_address := w })

/-- Modelled from the spec: the body of `DmaNoCopy::get_num_bytes_available`
is not in the source tree.  Refreshes `write_address` from the polled
register value and returns
`(write_address − outstanding_read_address) mod size_bytes`, with no cursor
mutation besides that refresh. -/
def get_num_bytes_available (s : DmaNoCopy) (hw_write : Nat) : Nat × DmaNoCopy :=
  let w := hw_write % s.size_bytes
  (wrap_sub w s.outstanding_read_address s.size_bytes,
   { s with write_address := w })

/-- An event of the consumer-facing API: a receive call (with the interrupt
status and write cursor the hardware presents at that moment) or a release
call. -/
inductive Event where
  | receive (irq : InterruptStatus) (hw_write min_num_bytes max_num_bytes : Nat)
  | release (num_bytes : Nat)
deriving DecidableEq

/-- The tracker state after one API call. -/
def applyEvent (s : DmaNoCopy) : Event → DmaNoCopy
  | .receive irq hw mn mx => (receive_data s irq hw mn mx).state
  | .release n => (done_with_data s n).state

/-- The tracker state after a sequence of API calls. -/
def runEvents (s : DmaNoCopy) : List Event → DmaNoCopy
  | [] => s
  | e :: es => runEvents (applyEvent s e) es

/-- The hardware contract for a polled write cursor: the DMA engine never
overwrites data that has not been released, so the available quantity it
reports, together with the bytes currently outstanding, fits in the buffer.
A release event needs no hardware input. -/
def hw_contract_ok (s : DmaNoCopy) : Event → Bool
  | .receive _ hw _ _ =>
      wrap_sub (hw % s.size_bytes) s.outstanding_read_address s.size_bytes
        + s.outQ ≤ s.size_bytes
  | .release _ => true

/-- A call sequence is valid when every receive event's polled write cursor
respects the hardware contract in the state where it is polled. -/
def valid_trace (s : DmaNoCopy) : List Event → Bool
  | [] => true
  | e :: es => hw_contract_ok s e && valid_trace (applyEvent s e) es

/-- One round-trip cycle: `receive_data p p` followed by `done_with_data p`.
Returns whether any assertion was reported during the cycle, and the state
afterwards. -/
def round_trip_cycle (s : DmaNoCopy) (irq : InterruptStatus) (hw_write p : Nat) :
    Bool × DmaNoCopy :=
  let r := receive_data s irq hw_write p p
  let d := done_with_data r.state p
  (r.assertion_called || d.assertion_called, d.state)

/-- Repeated round-trip cycles, one per polled (interrupt status, write
cursor) pair.  Returns whether any assertion was reported in any cycle, and
the final state. -/
def run_round_trip (s : DmaNoCopy) (p : Nat) :
    List (InterruptStatus × Nat) → Bool × DmaNoCopy
  | [] => (false, s)
  | (irq, hw) :: rest =>
      let c := round_trip_cycle s irq hw p
      let r := run_round_trip c.2 p rest
      (c.1 || r.1, r.2)

/-- A list of polls drives a valid round-trip run when the hardware signals
no error interrupt and has written at least `p` fresh bytes before every
cycle. -/
def round_trip_ok (s : DmaNoCopy) (p : Nat) :
    List (InterruptStatus × Nat) → Bool
  | [] => true
  | (irq, hw) :: rest =>
      !irq.error &&
        (p ≤ wrap_sub (hw % s.size_bytes) s.outstanding_read_address s.size_bytes) &&
        round_trip_ok (round_trip_cycle s irq hw p).2 p rest

/-! ### Arithmetic helper lemmas -/

theorem wrap_sub_lt (a b : Nat) {n : Nat} (hn : 0 < n) : wrap_sub a b n < n :=
  Nat.mod_lt _ hn

/-- For reduced arguments, `wrap_sub a b n` is `a - b` when `b ≤ a` and
`a + n - b` otherwise; stated as a disjunction of linear facts so that
`omega` can consume it. -/
theorem wrap_sub_cases {a b n : Nat} (ha : a < n) :
    (wrap_sub a b n = a + n - b ∧ a + n - b < n) ∨
      (wrap_sub a b n = a - b ∧ n ≤ a + n - b) := by
  unfold wrap_sub
  rcases Nat.lt_or_ge (a + n - b) n with h | h
  · exact Or.inl ⟨Nat.mod_eq_of_lt h, h⟩
  · refine Or.inr ⟨?_, h⟩
    rw [Nat.mod_eq_sub_mod h]
    have hab : a + n - b - n = a - b := by omega
    rw [hab, Nat.mod_eq_of_lt (by omega)]

/-- Reduction of `x % n` for `x < 2 * n`, as a disjunction of linear facts. -/
theorem mod_cases_of_lt_two_mul {x n : Nat} (h : x < 2 * n) :
    (x % n = x ∧ x < n) ∨ (x % n = x - n ∧ n ≤ x) := by
  rcases Nat.lt_or_ge x n with h1 | h1
  · exact Or.inl ⟨Nat.mod_eq_of_lt h1, h1⟩
  · have hn : 0 < n := by omega
    refine Or.inr ⟨?_, h1⟩
    rw [Nat.mod_eq_sub_mod h1, Nat.mod_eq_of_lt (by omega)]

/-! ### Invariant preservation step lemmas -/

/-- One `receive_data` call preserves well-formedness and the cyclic cursor
invariant, given the hardware contract for the polled write cursor. -/
theorem receive_step_inv {s : DmaNoCopy} (irq : InterruptStatus)
    (hw mn mx : Nat) (hwf : s.WF) (hinv : s.CursorInv)
    (hc : hw_contract_ok s (.receive irq hw mn mx) = true) :
    (receive_data s irq hw mn mx).state.WF ∧
      (receive_data s irq hw mn mx).state.CursorInv := by
  obtain ⟨hn, hw1, ho, hd⟩ := hwf
  simp only [hw_contract_ok, DmaNoCopy.outQ, decide_eq_true_eq] at hc
  have hwlt : hw % s.size_bytes < s.size_bytes := Nat.mod_lt _ hn
  simp only [receive_data, check_status]
  split
  · exact ⟨⟨hn, hw1, ho, hd⟩, hinv⟩
  · split
    · refine ⟨⟨hn, hwlt, ho, hd⟩, ?_⟩
      simp only [DmaNoCopy.CursorInv, DmaNoCopy.outQ, DmaNoCopy.availQ]
      exact by omega
    · have homod : s.outstanding_read_address % s.size_bytes =
        s.outstanding_read_address := Nat.mod_eq_of_lt ho
      rw [homod]
      set A := wrap_sub (hw % s.size_bytes) s.outstanding_read_address s.size_bytes
        with hA_def
      set deliver := min (min A mx) (s.size_bytes - s.outstanding_read_address)
        with hdel_def
      have hAlt : A < s.size_bytes := Nat.mod_lt _ hn
      have hdelA : deliver ≤ A :=
        le_trans (Nat.min_le_left _ _) (Nat.min_le_left _ _)
      have hsum : s.outstanding_read_address + deliver < 2 * s.size_bytes := by omega
      have hmodo := mod_cases_of_lt_two_mul hsum
      have holt : (s.outstanding_read_address + deliver) % s.size_bytes <
        s.size_bytes := Nat.mod_lt _ hn
      refine ⟨⟨hn, hwlt, holt, hd⟩, ?_⟩
      simp only [DmaNoCopy.CursorInv, DmaNoCopy.outQ, DmaNoCopy.availQ]
      have hQ := wrap_sub_cases (n := s.size_bytes)
        (a := s.outstanding_read_address) (b := s.done_read_address) ho
      have hQ2 := wrap_sub_cases (n := s.size_bytes)
        (a := (s.outstanding_read_address + deliver) % s.size_bytes)
        (b := s.done_read_address) holt
      have hA2 := wrap_sub_cases (n := s.size_bytes)
        (a := hw % s.size_bytes)
        (b := (s.outstanding_read_address + deliver) % s.size_bytes) hwlt
      have hA1 := wrap_sub_cases (n := s.size_bytes)
        (a := hw % s.size_bytes) (b := s.outstanding_read_address) hwlt
      rw [← hA_def] at hA1
      omega

/-- One `done_with_data` call preserves well-formedness and the cyclic cursor
invariant. -/
theorem release_step_inv {s : DmaNoCopy} (num_bytes : Nat)
    (hwf : s.WF) (hinv : s.CursorInv) :
    (done_with_data s num_bytes).state.WF ∧
      (done_with_data s num_bytes).state.CursorInv := by
  obtain ⟨hn, hw1, ho, hd⟩ := hwf
  simp only [done_with_data]
  split
  · exact ⟨⟨hn, hw1, ho, hd⟩, hinv⟩
  · rename_i hle
    simp only [DmaNoCopy.outQ, Nat.not_lt] at hle
    simp only [DmaNoCopy.CursorInv, DmaNoCopy.outQ, DmaNoCopy.availQ] at hinv ⊢
    have hQ := wrap_sub_cases (n := s.size_bytes)
      (a := s.outstanding_read_address) (b := s.done_read_address) ho
    have hQlt : wrap_sub s.outstanding_read_address s.done_read_address
      s.size_bytes < s.size_bytes := Nat.mod_lt _ hn
    have hsum : s.done_read_address + num_bytes < 2 * s.size_bytes := by omega
    have hmodd := mod_cases_of_lt_two_mul hsum
    have hdlt : (s.done_read_address + num_bytes) % s.size_bytes < s.size_bytes :=
      Nat.mod_lt _ hn
    have hQ2 := wrap_sub_cases (n := s.size_bytes)
      (a := s.outstanding_read_address)
      (b := (s.done_read_address + num_bytes) % s.size_bytes) ho
    exact ⟨⟨hn, hw1, ho, hdlt⟩, by omega⟩

/-- Well-formedness and the cursor invariant hold after every valid call
sequence. -/
theorem runEvents_inv (es : List Event) : ∀ s : DmaNoCopy,
    s.WF → s.CursorInv → valid_trace s es = true →
    (runEvents s es).WF ∧ (runEvents s es).CursorInv := by
  induction es with
  | nil => exact fun s h1 h2 _ => ⟨h1, h2⟩
  | cons e es ih =>
      intro s h1 h2 hv
      simp only [valid_trace, Bool.and_eq_true] at hv
      obtain ⟨hc, hv⟩ := hv
      have hstep : (applyEvent s e).WF ∧ (applyEvent s e).CursorInv := by
        cases e with
        | receive irq hw mn mx => exact receive_step_inv irq hw mn mx h1 h2 hc
        | release nb => exact release_step_inv nb h1 h2
      exact ih (applyEvent s e) hstep.1 hstep.2 hv

/-! ### Round-trip lemmas -/

/-- One `receive_data p p` / `done_with_data p` cycle, starting with
`outstanding = done` on a packet boundary and with at least `p` fresh bytes
reported by the hardware, reports no assertion and restores
`outstanding = done` on a packet boundary. -/
theorem round_trip_cycle_step {s : DmaNoCopy} {irq : InterruptStatus} {hw p : Nat}
    (hpn : p ∣ s.size_bytes)
    (ho : s.outstanding_read_address < s.size_bytes)
    (hpo : p ∣ s.outstanding_read_address)
    (heq : s.outstanding_read_address = s.done_read_address)
    (herr : irq.error = false)
    (havail : p ≤ wrap_sub (hw % s.size_bytes) s.outstanding_read_address
      s.size_bytes) :
    (round_trip_cycle s irq hw p).1 = false ∧
    (round_trip_cycle s irq hw p).2.size_bytes = s.size_bytes ∧
    (round_trip_cycle s irq hw p).2.outstanding_read_address =
      (round_trip_cycle s irq hw p).2.done_read_address ∧
    (round_trip_cycle s irq hw p).2.outstanding_read_address < s.size_bytes ∧
    p ∣ (round_trip_cycle s irq hw p).2.outstanding_read_address := by
  have hn : 0 < s.size_bytes := Nat.lt_of_le_of_lt (Nat.zero_le _) ho
  have hAlt : wrap_sub (hw % s.size_bytes) s.outstanding_read_address
      s.size_bytes < s.size_bytes := wrap_sub_lt _ _ hn
  have hplt : p < s.size_bytes := lt_of_le_of_lt havail hAlt
  have homod : s.outstanding_read_address % s.size_bytes =
    s.outstanding_read_address := Nat.mod_eq_of_lt ho
  have hcont : p ≤ s.size_bytes - s.outstanding_read_address :=
    Nat.le_of_dvd (by omega) (Nat.dvd_sub' hpn hpo)
  have hnot : ¬ wrap_sub (hw % s.size_bytes) s.outstanding_read_address
      s.size_bytes < p := Nat.not_lt.2 havail
  have hdel : min (min (wrap_sub (hw % s.size_bytes) s.outstanding_read_address
      s.size_bytes) p) (s.size_bytes - s.outstanding_read_address) = p := by
    rw [Nat.min_eq_right havail, Nat.min_eq_left hcont]
  have hrec : receive_data s irq hw p p =
      { assertion_called := false,
        response := { num_bytes := p, data := some s.outstanding_read_address },
        state := { size_bytes := s.size_bytes,
                   write_address := hw % s.size_bytes,
                   outstanding_read_address :=
                     (s.outstanding_read_address + p) % s.size_bytes,
                   done_read_address := s.done_read_address } } := by
    simp [receive_data, check_status, herr, hnot, homod, hdel]
  have hout : wrap_sub ((s.outstanding_read_address + p) % s.size_bytes)
      s.done_read_address s.size_bytes = p := by
    have h1 := mod_cases_of_lt_two_mul
      (x := s.outstanding_read_address + p) (n := s.size_bytes) (by omega)
    have h2 := wrap_sub_cases (n := s.size_bytes)
      (a := (s.outstanding_read_address + p) % s.size_bytes)
      (b := s.done_read_address) (Nat.mod_lt _ hn)
    omega
  have hdone : done_with_data
      { size_bytes := s.size_bytes, write_address := hw % s.size_bytes,
        outstanding_read_address := (s.outstanding_read_address + p) % s.size_bytes,
        done_read_address := s.done_read_address } p =
      { assertion_called := false,
        reg_write := some ((s.done_read_address + p) % s.size_bytes),
        state := { size_bytes := s.size_bytes,
                   write_address := hw % s.size_bytes,
                   outstanding_read_address :=
                     (s.outstanding_read_address + p) % s.size_bytes,
                   done_read_address :=
                     (s.done_read_address + p) % s.size_bytes } } := by
    simp [done_with_data, DmaNoCopy.outQ, hout]
  have hfinal : round_trip_cycle s irq hw p =
      (false, { size_bytes := s.size_bytes,
                write_address := hw % s.size_bytes,
                outstanding_read_address :=
                  (s.outstanding_read_address + p) % s.size_bytes,
                done_read_address :=
                  (s.done_read_address + p) % s.size_bytes }) := by
    simp [round_trip_cycle, hrec, hdone]
  rw [hfinal]
  refine ⟨rfl, rfl, ?_, Nat.mod_lt _ hn, ?_⟩
  · rw [heq]
  · rcases mod_cases_of_lt_two_mul
        (x := s.outstanding_read_address + p) (n := s.size_bytes) (by omega) with
      ⟨h1, _⟩ | ⟨h1, _⟩
    · rw [h1]; exact dvd_add hpo dvd_rfl
    · rw [h1]; exact Nat.dvd_sub' (dvd_add hpo dvd_rfl) hpn

/-- Any number of valid round-trip cycles reports no assertion and keeps
`outstanding = done` on a packet boundary. -/
theorem run_round_trip_no_assert (p : Nat)
    (polls : List (InterruptStatus × Nat)) :
    ∀ s : DmaNoCopy, p ∣ s.size_bytes →
      s.outstanding_read_address < s.size_bytes →
      p ∣ s.outstanding_read_address →
      s.outstanding_read_address = s.done_read_address →
      round_trip_ok s p polls = true →
      (run_round_trip s p polls).1 = false ∧
        (run_round_trip s p polls).2.outstanding_read_address =
          (run_round_trip s p polls).2.done_read_address := by
  induction polls with
  | nil => exact fun s _ _ _ heq _ => ⟨rfl, heq⟩
  | cons poll rest ih =>
      obtain ⟨irq, hw⟩ := poll
      intro s hpn ho hpo heq hok
      simp only [round_trip_ok, Bool.and_eq_true, Bool.not_eq_true',
        decide_eq_true_eq] at hok
      obtain ⟨⟨herr, havail⟩, hok⟩ := hok
      have hstep := round_trip_cycle_step hpn ho hpo heq herr havail
      obtain ⟨hc1, hsz, hod, holt, hdvd⟩ := hstep
      have hrest := ih (round_trip_cycle s irq hw p).2 (hsz ▸ hpn)
        (hsz ▸ holt) hdvd hod hok
      simp only [run_round_trip]
      exact ⟨by rw [hc1, hrest.1]; rfl, hrest.2⟩

/-! ### Claim theorems -/

/-- C1: starting from the initial state (all cursors at offset 0), after any
valid sequence of `receive_data` / `done_with_data` calls the cyclic cursor
invariant holds: the outstanding quantity
`(outstanding_read_address − done_read_address) mod size_bytes` plus the
available quantity `(write_address − outstanding_read_address) mod
size_bytes` never exceeds `size_bytes` (each quantity is a `Nat`, hence
non-negative).  Since `valid_trace` is prefix-closed by construction, this
gives the invariant after every call of the sequence. -/
theorem cursor_invariant_after_every_call (size_bytes : Nat) (es : List Event)
    (hsize : 0 < size_bytes)
    (hvalid : valid_trace (initial_state size_bytes) es = true) :
    (runEvents (initial_state size_bytes) es).CursorInv := by
  have hwf : (initial_state size_bytes).WF :=
    ⟨hsize, hsize, hsize, hsize⟩
  have hinv : (initial_state size_bytes).CursorInv := by
    simp [DmaNoCopy.CursorInv, DmaNoCopy.outQ, DmaNoCopy.availQ, wrap_sub,
      initial_state]
  exact (runEvents_inv es (initial_state size_bytes) hwf hinv hvalid).2

/-- C1 witness: a buffer of 8 bytes, one receive after the hardware wrote 4
bytes, then a release of 2 bytes. -/
theorem cursor_invariant_after_every_call_witness :
    0 < 8 ∧
    valid_trace (initial_state 8)
      [Event.receive ⟨false, false⟩ 4 0 8, Event.release 2] = true ∧
    (runEvents (initial_state 8)
      [Event.receive ⟨false, false⟩ 4 0 8, Event.release 2]).CursorInv :=
  ⟨by decide, by decide,
    cursor_invariant_after_every_call 8
      [Event.receive ⟨false, false⟩ 4 0 8, Event.release 2]
      (by decide) (by decide)⟩

/-- C2: whenever `available = (write_address − outstanding_read_address) mod
size_bytes` (with the freshly polled write cursor) satisfies
`available ≥ min_num_bytes`, `receive_data` returns exactly
`min (min available max_num_bytes) (size_bytes − outstanding_read_address mod
size_bytes)` bytes, and consequently the returned region never spans the
physical end of the buffer. -/
theorem receive_data_delivers_min_truncated_at_wrap (s : DmaNoCopy)
    (irq : InterruptStatus) (hw_write min_num_bytes max_num_bytes : Nat)
    (herr : irq.error = false)
    (ho : s.outstanding_read_address < s.size_bytes)
    (hmin : min_num_bytes ≤
      wrap_sub (hw_write % s.size_bytes) s.outstanding_read_address s.size_bytes) :
    (receive_data s irq hw_write min_num_bytes max_num_bytes).response.num_bytes =
      min (min (wrap_sub (hw_write % s.size_bytes) s.outstanding_read_address
            s.size_bytes) max_num_bytes)
        (s.size_bytes - s.outstanding_read_address % s.size_bytes) ∧
    s.outstanding_read_address % s.size_bytes +
      (receive_data s irq hw_write min_num_bytes max_num_bytes).response.num_bytes ≤
        s.size_bytes := by
  have hnot : ¬ wrap_sub (hw_write % s.size_bytes) s.outstanding_read_address
      s.size_bytes < min_num_bytes := Nat.not_lt.2 hmin
  have h2 : s.outstanding_read_address % s.size_bytes = s.outstanding_read_address :=
    Nat.mod_eq_of_lt ho
  have hfst : (receive_data s irq hw_write min_num_bytes max_num_bytes).response.num_bytes =
      min (min (wrap_sub (hw_write % s.size_bytes) s.outstanding_read_address
            s.size_bytes) max_num_bytes)
        (s.size_bytes - s.outstanding_read_address % s.size_bytes) := by
    simp [receive_data, check_status, herr, hnot]
  refine ⟨hfst, ?_⟩
  rw [hfst, h2]
  have h1 := Nat.min_le_right
    (min (wrap_sub (hw_write % s.size_bytes) s.outstanding_read_address s.size_bytes)
      max_num_bytes)
    (s.size_bytes - s.outstanding_read_address)
  omega

/-- C2 witness: buffer size 4096, outstanding cursor at offset 3840, hardware
write cursor advanced 768 bytes past it (to offset 512); a call with
`min = 256`, `max = 1024` returns exactly 256 bytes, truncated at the wrap. -/
theorem receive_data_delivers_min_truncated_at_wrap_witness :
    (⟨false, false⟩ : InterruptStatus).error = false ∧
    (⟨4096, 3840, 3840, 3840⟩ : DmaNoCopy).outstanding_read_address <
      (⟨4096, 3840, 3840, 3840⟩ : DmaNoCopy).size_bytes ∧
    256 ≤ wrap_sub (512 % 4096) 3840 4096 ∧
    ((receive_data ⟨4096, 3840, 3840, 3840⟩ ⟨false, false⟩ 512 256 1024).response.num_bytes =
        min (min (wrap_sub (512 % 4096) 3840 4096) 1024) (4096 - 3840 % 4096) ∧
      3840 % 4096 +
        (receive_data ⟨4096, 3840, 3840, 3840⟩ ⟨false, false⟩ 512 256 1024).response.num_bytes ≤
          4096) ∧
    (receive_data ⟨4096, 3840, 3840, 3840⟩ ⟨false, false⟩ 512 256 1024).response.num_bytes = 256 :=
  ⟨rfl, by decide, by decide,
    receive_data_delivers_min_truncated_at_wrap ⟨4096, 3840, 3840, 3840⟩
      ⟨false, false⟩ 512 256 1024 rfl (by decide) (by decide),
    by decide⟩

/-- C3: when fewer bytes are available than `min_num_bytes`, `receive_data`
returns the zero-length result and changes neither `outstanding_read_address`
nor `done_read_address`. -/
theorem receive_data_insufficient_is_noop (s : DmaNoCopy)
    (irq : InterruptStatus) (hw_write min_num_bytes max_num_bytes : Nat)
    (herr : irq.error = false)
    (hlt : wrap_sub (hw_write % s.size_bytes) s.outstanding_read_address s.size_bytes <
      min_num_bytes) :
    (receive_data s irq hw_write min_num_bytes max_num_bytes).response =
        response_zero_bytes ∧
    (receive_data s irq hw_write min_num_bytes max_num_bytes).state.outstanding_read_address =
        s.outstanding_read_address ∧
    (receive_data s irq hw_write min_num_bytes max_num_bytes).state.done_read_address =
        s.done_read_address := by
  simp [receive_data, check_status, herr, hlt]

/-- C3 witness: with 4 bytes available and `min = 8`, the call returns the
zero response and leaves both read cursors alone. -/
theorem receive_data_insufficient_is_noop_witness :
    (⟨false, false⟩ : InterruptStatus).error = false ∧
    wrap_sub (8 % 16) 4 16 < 8 ∧
    ((receive_data ⟨16, 0, 4, 4⟩ ⟨false, false⟩ 8 8 8).response = response_zero_bytes ∧
      (receive_data ⟨16, 0, 4, 4⟩ ⟨false, false⟩ 8 8 8).state.outstanding_read_address = 4 ∧
      (receive_data ⟨16, 0, 4, 4⟩ ⟨false, false⟩ 8 8 8).state.done_read_address = 4) :=
  ⟨rfl, by decide,
    receive_data_insufficient_is_noop ⟨16, 0, 4, 4⟩ ⟨false, false⟩ 8 8 8 rfl (by decide)⟩

/-- C4: releasing more bytes than are currently outstanding invokes the
assertion handler and leaves the tracker state completely unchanged. -/
theorem done_with_data_over_release_asserts (s : DmaNoCopy) (num_bytes : Nat)
    (h : s.outQ < num_bytes) :
    (done_with_data s num_bytes).assertion_called = true ∧
    (done_with_data s num_bytes).state = s ∧
    (done_with_data s num_bytes).reg_write = none := by
  simp [done_with_data, h]

/-- C4 witness: with 4 bytes outstanding, releasing 8 bytes reports the usage
error and mutates nothing. -/
theorem done_with_data_over_release_asserts_witness :
    (⟨16, 8, 8, 4⟩ : DmaNoCopy).outQ < 8 ∧
    ((done_with_data ⟨16, 8, 8, 4⟩ 8).assertion_called = true ∧
      (done_with_data ⟨16, 8, 8, 4⟩ 8).state = ⟨16, 8, 8, 4⟩ ∧
      (done_with_data ⟨16, 8, 8, 4⟩ 8).reg_write = none) :=
  ⟨by decide, done_with_data_over_release_asserts ⟨16, 8, 8, 4⟩ 8 (by decide)⟩

/-- C5: a release within the outstanding quantity advances
`done_read_address` by `num_bytes` modulo `size_bytes`, writes the new done
cursor to the register interface, and leaves `outstanding_read_address` and
`write_address` unchanged. -/
theorem done_with_data_advances_done_cursor (s : DmaNoCopy) (num_bytes : Nat)
    (h : num_bytes ≤ s.outQ) :
    (done_with_data s num_bytes).assertion_called = false ∧
    (done_with_data s num_bytes).state.done_read_address =
      (s.done_read_address + num_bytes) % s.size_bytes ∧
    (done_with_data s num_bytes).reg_write =
      some ((s.done_read_address + num_bytes) % s.size_bytes) ∧
    (done_with_data s num_bytes).state.outstanding_read_address =
      s.outstanding_read_address ∧
    (done_with_data s num_bytes).state.write_address = s.write_address := by
  simp [done_with_data, Nat.not_lt.2 h]

/-- C5 witness: with 4 bytes outstanding, releasing 4 bytes advances the done
cursor from 4 to 8 and writes 8 out to the register interface. -/
theorem done_with_data_advances_done_cursor_witness :
    4 ≤ (⟨16, 8, 8, 4⟩ : DmaNoCopy).outQ ∧
    ((done_with_data ⟨16, 8, 8, 4⟩ 4).assertion_called = false ∧
      (done_with_data ⟨16, 8, 8, 4⟩ 4).state.done_read_address = (4 + 4) % 16 ∧
      (done_with_data ⟨16, 8, 8, 4⟩ 4).reg_write = some ((4 + 4) % 16) ∧
      (done_with_data ⟨16, 8, 8, 4⟩ 4).state.outstanding_read_address = 8 ∧
      (done_with_data ⟨16, 8, 8, 4⟩ 4).state.write_address = 8) :=
  ⟨by decide, done_with_data_advances_done_cursor ⟨16, 8, 8, 4⟩ 4 (by decide)⟩

/-- C6: `receive_all_data` produces exactly the same result (assertion
report, response and state change) as
`receive_data (min_num_bytes := 0) (max_num_bytes := size_bytes)`, for every
state and every polled hardware input. -/
theorem receive_all_data_refines_receive_data (s : DmaNoCopy)
    (irq : InterruptStatus) (hw_write : Nat) :
    receive_all_data s irq hw_write = receive_data s irq hw_write 0 s.size_bytes := by
  rcases Nat.eq_zero_or_pos s.size_bytes with hn | hn
  · simp [receive_all_data, receive_data, check_status, hn]
  · have hlt := wrap_sub_lt (hw_write % s.size_bytes) s.outstanding_read_address hn
    simp [receive_all_data, receive_data, check_status, Nat.min_eq_left hlt.le]

/-- C7: after `clear_all_data`, both read cursors equal the freshly polled
write cursor (so nothing is outstanding), the value pushed to the register
interface is the new done cursor (declaring the whole span free), and
`get_num_bytes_available` with the same polled write cursor reports zero
backlog. -/
theorem clear_all_data_resets_tracking (s : DmaNoCopy) (hw_write : Nat) :
    (clear_all_data s hw_write).2.outstanding_read_address =
      (clear_all_data s hw_write).2.write_address ∧
    (clear_all_data s hw_write).2.done_read_address =
      (clear_all_data s hw_write).2.write_address ∧
    (clear_all_data s hw_write).2.outQ = 0 ∧
    (clear_all_data s hw_write).1 = (clear_all_data s hw_write).2.done_read_address ∧
    (get_num_bytes_available (clear_all_data s hw_write).2 hw_write).1 = 0 := by
  simp [clear_all_data, get_num_bytes_available, DmaNoCopy.outQ, wrap_sub,
    Nat.add_sub_cancel_left]

/-- C8: starting from the initial state, repeated `receive_data p p` /
`done_with_data p` cycles for a packet-sized `p` (with `size_bytes` a
multiple of `p`), driven by polls in which the hardware signals no error
interrupt and has written at least `p` fresh bytes per cycle, never invoke
the assertion handler (neither for a hardware error interrupt report nor for
a usage violation) and keep `outstanding_read_address = done_read_address`
between cycles; `round_trip_ok` is prefix-closed by construction, so this
holds after every cycle and for any number `N` of full buffer cycles. -/
theorem round_trip_never_asserts (size_bytes p : Nat)
    (polls : List (InterruptStatus × Nat))
    (hsize : 0 < size_bytes) (hdvd : p ∣ size_bytes)
    (hok : round_trip_ok (initial_state size_bytes) p polls = true) :
    (run_round_trip (initial_state size_bytes) p polls).1 = false ∧
      (run_round_trip (initial_state size_bytes) p polls).2.outstanding_read_address =
        (run_round_trip (initial_state size_bytes) p polls).2.done_read_address :=
  run_round_trip_no_assert p polls (initial_state size_bytes) hdvd hsize
    (dvd_zero p) rfl hok

/-- C8 witness: buffer of 8 bytes, packet length 4, four cycles making two
full buffer cycles, with the hardware always 4 bytes ahead. -/
theorem round_trip_never_asserts_witness :
    0 < 8 ∧ 4 ∣ 8 ∧
    round_trip_ok (initial_state 8) 4
      [(⟨true, false⟩, 4), (⟨true, false⟩, 0), (⟨true, false⟩, 4),
        (⟨true, false⟩, 0)] = true ∧
    ((run_round_trip (initial_state 8) 4
        [(⟨true, false⟩, 4), (⟨true, false⟩, 0), (⟨true, false⟩, 4),
          (⟨true, false⟩, 0)]).1 = false ∧
      (run_round_trip (initial_state 8) 4
        [(⟨true, false⟩, 4), (⟨true, false⟩, 0), (⟨true, false⟩, 4),
          (⟨true, false⟩, 0)]).2.outstanding_read_address =
        (run_round_trip (initial_state 8) 4
          [(⟨true, false⟩, 4), (⟨true, false⟩, 0), (⟨true, false⟩, 4),
            (⟨true, false⟩, 0)]).2.done_read_address) :=
  ⟨by decide, by decide, by decide,
    round_trip_never_asserts 8 4
      [(⟨true, false⟩, 4), (⟨true, false⟩, 0), (⟨true, false⟩, 4),
        (⟨true, false⟩, 0)]
      (by decide) (by decide) (by decide)⟩

/-- C9: `get_num_bytes_available` returns
`(write_address − outstanding_read_address) mod size_bytes` computed from the
freshly polled write cursor, mutates nothing besides refreshing
`write_address`, and returns 0 when all previously reported data has been
received and the hardware has not written since the last check. -/
theorem get_num_bytes_available_observes (s : DmaNoCopy) (hw_write : Nat) :
    (get_num_bytes_available s hw_write).1 =
      wrap_sub (hw_write % s.size_bytes) s.outstanding_read_address s.size_bytes ∧
    (get_num_bytes_available s hw_write).2 =
      { s with write_address := hw_write % s.size_bytes } ∧
    (s.write_address = s.outstanding_read_address →
      hw_write % s.size_bytes = s.write_address →
      (get_num_bytes_available s hw_write).1 = 0) := by
  refine ⟨rfl, rfl, ?_⟩
  intro h1 h2
  simp only [get_num_bytes_available, h2, h1, wrap_sub, Nat.add_sub_cancel_left,
    Nat.mod_self]

/-- C9 witness: in the freshly constructed tracker, a poll that still reads
write cursor 0 reports zero available bytes. -/
theorem get_num_bytes_available_observes_witness :
    (get_num_bytes_available ⟨16, 0, 0, 0⟩ 0).1 = 0 :=
  (get_num_bytes_available_observes ⟨16, 0, 0, 0⟩ 0).2.2 rfl rfl

/-- C10 counterexample: in a state with nothing available, `receive_all_data`
(that is, `receive_data` with `min_num_bytes = 0`) returns a zero-length
response whose data pointer is the current outstanding offset, not the null
pointer of `response_zero_bytes`. -/
theorem receive_zero_length_null_pointer_cex :
    (receive_all_data ⟨16, 0, 0, 0⟩ ⟨false, false⟩ 0).response.num_bytes = 0 ∧
    (receive_all_data ⟨16, 0, 0, 0⟩ ⟨false, false⟩ 0).response ≠ response_zero_bytes ∧
    (receive_all_data ⟨16, 0, 0, 0⟩ ⟨false, false⟩ 0).response.data ≠ none := by
  decide

/-- C10 amended: a zero-length response from `receive_data` or
`receive_all_data` is either the shared zero-initialized constant
`response_zero_bytes` (null pointer) — as on the error-interrupt and
insufficient-data paths — or it carries the current outstanding offset as its
data pointer (the delivery path with `min_num_bytes = 0` and nothing
available), so the caller never receives a dangling or stale pointer together
with a zero length. -/
theorem receive_zero_length_pointer_amended (s : DmaNoCopy)
    (irq : InterruptStatus) (hw_write min_num_bytes max_num_bytes : Nat) :
    ((receive_data s irq hw_write min_num_bytes max_num_bytes).response.num_bytes = 0 →
      (receive_data s irq hw_write min_num_bytes max_num_bytes).response =
          response_zero_bytes ∨
        (receive_data s irq hw_write min_num_bytes max_num_bytes).response.data =
          some (s.outstanding_read_address % s.size_bytes)) ∧
    ((receive_all_data s irq hw_write).response.num_bytes = 0 →
      (receive_all_data s irq hw_write).response = response_zero_bytes ∨
        (receive_all_data s irq hw_write).response.data =
          some (s.outstanding_read_address % s.size_bytes)) := by
  constructor
  · intro h
    simp only [receive_data, check_status] at h ⊢
    split_ifs at h ⊢ <;> simp_all
  · intro h
    simp only [receive_all_data, check_status] at h ⊢
    split_ifs at h ⊢ <;> simp_all

/-- C10 amended witness: the counterexample state instantiates the delivery
branch of the amended statement. -/
theorem receive_zero_length_pointer_amended_witness :
    (receive_all_data ⟨16, 0, 0, 0⟩ ⟨false, false⟩ 0).response.num_bytes = 0 ∧
    ((receive_all_data ⟨16, 0, 0, 0⟩ ⟨false, false⟩ 0).response = response_zero_bytes ∨
      (receive_all_data ⟨16, 0, 0, 0⟩ ⟨false, false⟩ 0).response.data = some (0 % 16)) :=
  ⟨by decide,
    (receive_zero_length_pointer_amended ⟨16, 0, 0, 0⟩ ⟨false, false⟩ 0 0 16).2
      (by decide)⟩

end DmaAxiWriteSimple
